import Mathlib

set_option maxHeartbeats 1000000

/- Verification development for the camino-lote-masivo batch workflow.
The Python source is shallowly embedded: pure helpers become Lean
functions, the opaque desktop-automation and clipboard primitives become
oracle parameters, file appends become list appends, and the record
processor and batch loop become explicit state-passing functions. -/

namespace Camino

/- ## String utilities mirroring the Python string primitives -/

/-- Python str.strip: remove leading and trailing whitespace. -/
def pyStrip (s : String) : String :=
  String.mk (((s.toList.dropWhile Char.isWhitespace).reverse.dropWhile Char.isWhitespace).reverse)

/-- Tokenizer worker: acc holds the reversed characters of the word being
read; separator characters flush it, and empty tokens are dropped. -/
def splitWsAux (p : Char → Bool) : List Char → List Char → List (List Char)
  | [], acc => if acc.isEmpty then [] else [acc.reverse]
  | ch :: cs, acc =>
    if p ch then
      if acc.isEmpty then splitWsAux p cs []
      else acc.reverse :: splitWsAux p cs []
    else splitWsAux p cs (ch :: acc)

/-- Python str.split with no separator argument: the maximal runs of
non-separator characters, empty tokens dropped. -/
def splitWs (p : Char → Bool) (l : List Char) : List (List Char) :=
  splitWsAux p l []

/-- Prefix test used by the substring test below. -/
def listIsPre : List Char → List Char → Bool
  | [], _ => true
  | _ :: _, [] => false
  | a :: as, b :: bs => a == b && listIsPre as bs

/-- Python substring containment, needle in haystack. -/
def listIsSub (needle : List Char) : List Char → Bool
  | [] => needle.isEmpty
  | b :: bs => listIsPre needle (b :: bs) || listIsSub needle bs

/-- One CSV row, as the association list of column name to cell value. -/
abbrev Row := List (String × String)

/-- Python row.get(col, empty default) on a DictReader row. -/
def rowGet (r : Row) (k : String) : String :=
  match r.find? (fun p => p.1 == k) with
  | some p => p.2
  | none => ""

/- ## Constants taken verbatim from the source -/

def MIN_WORD_LENGTH : Nat := 2
def MAX_CONSECUTIVE_FAILURES : Nat := 3
def MAX_POPUP_CLEAR_ATTEMPTS : Nat := 5
def RECOVERY_CLOSE_CLICKS : Nat := 4
def VPN_STABILITY_CHECKS : Nat := 3
def EXPECTED_POPUP_TEXT : String := "Búsqueda no guardada"

/- ## Name matcher -/

/-- Character-level Unicode operations used by normalize_name.  The Python
code delegates NFD decomposition, combining-mark classification,
upper-casing and whitespace classification to the unicodedata and str
library routines, so the embedding takes them as parameters. -/
structure CharModel where
  decomp : Char → List Char
  isMark : Char → Bool
  upper : Char → Char
  isWs : Char → Bool

/-- Concatenation of the per-character decompositions. -/
def concatChars : List (List Char) → List Char
  | [] => []
  | l :: ls => l ++ concatChars ls

/-- Embedding of normalize_name: NFD-decompose, drop combining marks,
upper-case, split on whitespace, keep the words of length above
MIN_WORD_LENGTH, and return them as a set. -/
def normalize_name (cm : CharModel) (name : String) : Finset String :=
  let decomposed := concatChars (name.toList.map cm.decomp)
  let stripped := decomposed.filter (fun ch => !cm.isMark ch)
  let words := splitWs cm.isWs (stripped.map cm.upper)
  ((words.filter (fun w => MIN_WORD_LENGTH < w.length)).map String.mk).toFinset

/-- Embedding of names_match: at least one word is shared by the two
normalized names. -/
def names_match (cm : CharModel) (csv_name copied_name : String) : Bool :=
  decide (0 < ((normalize_name cm csv_name) ∩ (normalize_name cm copied_name)).card)

/-- C5: names_match returns true exactly when the two normalized token
sets have a non-empty intersection, and an empty observed name never
matches. -/
theorem c5_names_match_iff_common_token :
    ∀ (cm : CharModel) (expected observed : String),
      (names_match cm expected observed = true ↔
        ∃ t, t ∈ normalize_name cm expected ∧ t ∈ normalize_name cm observed)
      ∧ names_match cm expected "" = false := by
  intro cm e o
  constructor
  · unfold names_match
    rw [decide_eq_true_iff, Finset.card_pos]
    constructor
    · rintro ⟨t, ht⟩
      exact ⟨t, Finset.mem_inter.mp ht⟩
    · rintro ⟨t, h1, h2⟩
      exact ⟨t, Finset.mem_inter.mpr ⟨h1, h2⟩⟩
  · have h0 : normalize_name cm "" = ∅ := by
      simp [normalize_name, concatChars, splitWs, splitWsAux]
    simp [names_match, h0]

/- ## Coordinate loading and validation -/

/-- One raw coordinate entry from the JSON file: either field may be
absent.  A Python dict lookup with a default of the empty dict followed by
a truthiness test treats a missing key and a zero value alike. -/
structure RawCoord where
  x : Option Int
  y : Option Int
deriving DecidableEq, Repr

/-- The coordinates JSON object: action name to raw coordinate. -/
abbrev RawCoords := List (String × RawCoord)

/-- Python coords.get(key, empty dict). -/
def cGet (coords : RawCoords) (k : String) : RawCoord :=
  match coords.find? (fun p => p.1 == k) with
  | some p => p.2
  | none => ⟨none, none⟩

/-- Python truthiness of coord.get(axis): false when absent or zero. -/
def axTruthy : Option Int → Bool
  | none => false
  | some v => v != 0

/-- The required action names, in the order the source lists them. -/
def required_keys : List String :=
  ["dni_input", "first_result", "copy_name_menu", "right_click_address",
   "select_all_menu", "right_click_copy", "copy_menu", "close_btn",
   "reconnect_click", "popup_right_click", "popup_copy_menu", "btn_house"]

/-- Embedding of validate_coordinates: the validity flag together with the
list of missing or invalid keys. -/
def validate_coordinates (coords : RawCoords) : Bool × List String :=
  let missing := required_keys.filter
    (fun k => !(axTruthy (cGet coords k).x && axTruthy (cGet coords k).y))
  (missing.isEmpty, missing)

/-- Embedding of load_coords.  The input is none when the coordinates file
does not exist.  The Python function calls sys.exit(1) on a missing file
and on failed validation, which the embedding renders as Except.error with
the exit code. -/
def load_coords : Option RawCoords → Except Nat RawCoords
  | none => .error 1
  | some coords =>
    if (validate_coordinates coords).1 then .ok coords else .error 1

/-- A screen position, as used after validation. -/
structure Coord where
  x : Int
  y : Int
deriving DecidableEq, Repr

/-- Python truthiness of both coordinate components. -/
def Coord.truthy (c : Coord) : Bool := c.x != 0 && c.y != 0

/-- The validated coordinate set, one field per required action name. -/
structure CoordsV where
  dni_input : Coord
  first_result : Coord
  copy_name_menu : Coord
  right_click_address : Coord
  select_all_menu : Coord
  right_click_copy : Coord
  copy_menu : Coord
  close_btn : Coord
  reconnect_click : Coord
  popup_right_click : Coord
  popup_copy_menu : Coord
  btn_house : Coord
deriving DecidableEq, Repr

/-- All twelve coordinates present and non-zero. -/
def CoordsV.Valid (c : CoordsV) : Prop :=
  c.dni_input.truthy = true ∧ c.first_result.truthy = true ∧
  c.copy_name_menu.truthy = true ∧ c.right_click_address.truthy = true ∧
  c.select_all_menu.truthy = true ∧ c.right_click_copy.truthy = true ∧
  c.copy_menu.truthy = true ∧ c.close_btn.truthy = true ∧
  c.reconnect_click.truthy = true ∧ c.popup_right_click.truthy = true ∧
  c.popup_copy_menu.truthy = true ∧ c.btn_house.truthy = true

/-- Projection of a raw coordinate map onto the named records the rest of
the program indexes directly; an absent component becomes 0, exactly the
falsy value the downstream truthiness tests treat as unconfigured. -/
def toCoordsV (raw : RawCoords) : CoordsV :=
  let f : String → Coord := fun k =>
    ⟨((cGet raw k).x.getD 0), ((cGet raw k).y.getD 0)⟩
  ⟨f "dni_input", f "first_result", f "copy_name_menu", f "right_click_address",
   f "select_all_menu", f "right_click_copy", f "copy_menu", f "close_btn",
   f "reconnect_click", f "popup_right_click", f "popup_copy_menu", f "btn_house"⟩

/- ## Record processor -/

/-- A Python exception: the operator interrupt, or any other exception
with its message.  KeyboardInterrupt is re-raised by process_dni; every
other exception is caught at its boundary. -/
inductive Exc where
  | kbInterrupt
  | err (msg : String)
deriving DecidableEq, Repr

/-- Result of running a fragment of Python code: a value, or an exception
propagating out of it. -/
inductive ExecR (α : Type) where
  | ok (a : α)
  | raised (e : Exc)
deriving DecidableEq, Repr

/-- The three strings process_dni can return. -/
inductive PResult where
  | ok
  | vpnIssue
  | error
deriving DecidableEq, Repr

/-- The opaque-primitive oracle for one process_dni attempt: for each
screen-automation step, whether it raises, and for each clipboard read,
the text obtained.  The order of the fields follows the order in which the
source performs the steps. -/
structure Attempt where
  searchExc : Option Exc
  nameUiExc : Option Exc
  nameClip : String
  blockedUiExc : Option Exc
  blockedClip : String
  nfCloseExc : Option Exc
  recExc : Option (Nat × Exc)
  detailExc : Option Exc
  addrUiExc1 : Option Exc
  addrClip1 : String
  cartelExc : Option Exc
  addrUiExc2 : Option Exc
  addrClip2 : String
  closeExc : Option Exc
  handlerCloseExc : Option Exc
deriving DecidableEq, Repr

/-- An attempt in which no automation primitive raises. -/
def Attempt.NoExc (a : Attempt) : Prop :=
  a.searchExc = none ∧ a.nameUiExc = none ∧ a.blockedUiExc = none ∧
  a.nfCloseExc = none ∧ a.recExc = none ∧ a.detailExc = none ∧
  a.addrUiExc1 = none ∧ a.cartelExc = none ∧ a.addrUiExc2 = none ∧
  a.closeExc = none ∧ a.handlerCloseExc = none

/-- One line of the failures file: the identity number and the reason (the
wall-clock timestamp the source also writes is not modelled). -/
structure FailRow where
  dni : String
  reason : String
deriving DecidableEq, Repr

/-- What one process_dni call produces: its returned status (or the
propagated interrupt), the rows it appended to the results file and to the
failures file, and how many clicks it performed on the close_btn
coordinate. -/
structure PDniOut where
  status : ExecR PResult
  resRows : List Row
  failRows : List FailRow
  closes : Nat
deriving DecidableEq, Repr

/-- Embedding of search_dni: screen actions only. -/
def search_dni (a : Attempt) : ExecR Unit :=
  match a.searchExc with
  | some e => .raised e
  | none => .ok ()

/-- Embedding of copy_and_validate_name: right-click the first result,
copy the name, read the clipboard; none when nothing was copied or the
copied name does not match the CSV name. -/
def copy_and_validate_name (cm : CharModel) (a : Attempt) (nombre_csv : String) :
    ExecR (Option String) :=
  match a.nameUiExc with
  | some e => .raised e
  | none =>
    let nombre_copiado := a.nameClip
    if pyStrip nombre_copiado = "" then .ok none
    else if names_match cm nombre_csv nombre_copiado then .ok (some nombre_copiado)
    else .ok none

/-- Embedding of check_system_blocked: try to copy the sentinel popup
text; blocked when the sentinel is not in the clipboard.  The source tests
only the x components of the two popup coordinates before proceeding. -/
def check_system_blocked (c : CoordsV) (a : Attempt) : ExecR Bool :=
  if !(axTruthy (some c.popup_right_click.x) && axTruthy (some c.popup_copy_menu.x)) then
    .ok false
  else
    match a.blockedUiExc with
    | some e => .raised e
    | none => .ok (!(listIsSub EXPECTED_POPUP_TEXT.toList a.blockedClip.toList))

/-- Embedding of execute_system_recovery: reconnect click, then
RECOVERY_CLOSE_CLICKS clicks on close_btn, then the home click.  The
second component counts the close_btn clicks that were performed; the
oracle recExc can interrupt the sequence after a given number of them. -/
def execute_system_recovery (c : CoordsV) (a : Attempt) : ExecR Bool × Nat :=
  match a.recExc with
  | some (n, e) => (.raised e, min n RECOVERY_CLOSE_CLICKS)
  | none =>
    if c.reconnect_click.truthy then
      if c.close_btn.truthy then
        if c.btn_house.truthy then (.ok true, RECOVERY_CLOSE_CLICKS)
        else (.ok false, RECOVERY_CLOSE_CLICKS)
      else (.ok false, 0)
    else (.ok false, 0)

/-- Embedding of copy_address_with_retry: one copy attempt; when the
clipboard stays blank and the reconnect coordinate is configured, close
the error dialog and retry exactly once. -/
def copy_address_with_retry (c : CoordsV) (a : Attempt) : ExecR (Option String) :=
  match a.addrUiExc1 with
  | some e => .raised e
  | none =>
    let direccion := a.addrClip1
    if pyStrip direccion ≠ "" then .ok (some direccion)
    else if c.reconnect_click.truthy then
      match a.cartelExc with
      | some e => .raised e
      | none =>
        match a.addrUiExc2 with
        | some e => .raised e
        | none =>
          let direccion2 := a.addrClip2
          if pyStrip direccion2 ≠ "" then .ok (some direccion2) else .ok none
    else .ok none

/-- The results-file row save_result writes: the original columns in
field-name order with the cleaned address appended as Ubicacion. -/
def save_result_row (fieldnames : List String) (row : Row) (ubicacion : String) : Row :=
  let clean := pyStrip (String.mk (ubicacion.toList.map
    (fun ch => if ch = '\n' ∨ ch = '\r' then ' ' else ch)))
  (fieldnames.filter (fun col => col ≠ "Ubicacion")).map (fun col => (col, rowGet row col))
    ++ [("Ubicacion", clean)]

/-- The failed-name-validation arm of process_dni: record the failure,
then close the current record and run the blocked-system recovery only
when check_system_blocked reports a block; return vpnIssue. -/
def nameFailBranch (c : CoordsV) (a : Attempt) (dni : String) :
    ExecR PResult × List Row × List FailRow × Nat :=
  let f1 : FailRow := ⟨dni, "no creado - nombre no coincide o sin nombre"⟩
  match check_system_blocked c a with
  | .raised e => (.raised e, [], [f1], 0)
  | .ok true =>
    match a.nfCloseExc with
    | some e => (.raised e, [], [f1], 0)
    | none =>
      match execute_system_recovery c a with
      | (.raised e, n) => (.raised e, [], [f1], 1 + n)
      | (.ok _, n) => (.ok .vpnIssue, [], [f1], 1 + n)
  | .ok false => (.ok .vpnIssue, [], [f1], 0)

/-- The validated-name arm of process_dni: open the detail view, copy the
address, persist the one row, close the record. -/
def addrBranch (c : CoordsV) (a : Attempt) (fns : List String) (row : Row)
    (dni : String) : ExecR PResult × List Row × List FailRow × Nat :=
  match a.detailExc with
  | some e => (.raised e, [], [], 0)
  | none =>
    match copy_address_with_retry c a with
    | .raised e => (.raised e, [], [], 0)
    | .ok (some d) =>
      match a.closeExc with
      | some e => (.raised e, [save_result_row fns row d], [], 0)
      | none => (.ok PResult.ok, [save_result_row fns row d], [], 1)
    | .ok none =>
      let f2 : FailRow := ⟨dni, "Sin direccion copiada - fallo tras reintento"⟩
      match a.closeExc with
      | some e => (.raised e, [], [f2], 0)
      | none => (.ok PResult.error, [], [f2], 1)

/-- The body of process_dni, before its exception handler: the try-block
of the source, returning the status or the exception escaping it,
together with the appended rows and the close_btn click count. -/
def process_dni_body (cm : CharModel) (c : CoordsV) (a : Attempt)
    (dniCol nombreCol : String) (fieldnames : List String) (row : Row) :
    ExecR PResult × List Row × List FailRow × Nat :=
  let dni := pyStrip (rowGet row dniCol)
  let nombre_csv := pyStrip (rowGet row nombreCol)
  match search_dni a with
  | .raised e => (.raised e, [], [], 0)
  | .ok _ =>
    match copy_and_validate_name cm a nombre_csv with
    | .raised e => (.raised e, [], [], 0)
    | .ok none => nameFailBranch c a dni
    | .ok (some _) => addrBranch c a fieldnames row dni

/-- Embedding of process_dni: the body wrapped in the source's exception
handler.  KeyboardInterrupt is re-raised; any other exception is recorded
as a failure row and, when the close coordinate is configured, answered
with one recovery close click whose own exception is swallowed unless it
is itself the interrupt. -/
def process_dni (cm : CharModel) (c : CoordsV) (a : Attempt)
    (dniCol nombreCol : String) (fieldnames : List String) (row : Row) : PDniOut :=
  let dni := pyStrip (rowGet row dniCol)
  match process_dni_body cm c a dniCol nombreCol fieldnames row with
  | (.ok r, res, fl, cl) => ⟨.ok r, res, fl, cl⟩
  | (.raised .kbInterrupt, res, fl, cl) => ⟨.raised .kbInterrupt, res, fl, cl⟩
  | (.raised (.err m), res, fl, cl) =>
    let fl2 := fl ++ [⟨dni, "Exception: " ++ m⟩]
    if c.close_btn.truthy then
      match a.handlerCloseExc with
      | some .kbInterrupt => ⟨.raised .kbInterrupt, res, fl2, cl⟩
      | some (.err _) => ⟨.ok .error, res, fl2, cl⟩
      | none => ⟨.ok .error, res, fl2, cl + 1⟩
    else ⟨.ok .error, res, fl2, cl⟩

/- ## Progress file and resume filter -/

/-- Embedding of load_progress: the set of non-empty stripped DNI values
found in the existing results file. -/
def load_progress (fileRows : List Row) : Finset String :=
  (((fileRows.map (fun r => pyStrip (rowGet r "DNI"))).filter
    (fun d => d ≠ "")).toFinset)

/-- The registros filter in run: keep the rows whose stripped identity
number is non-empty and not already in the progress set. -/
def select_registros (dniCol : String) (rows : List Row) (processed : Finset String) :
    List Row :=
  rows.filter (fun r =>
    let d := pyStrip (rowGet r dniCol)
    d ≠ "" ∧ d ∉ processed)

/- ## Connectivity monitor -/

/-- The confirmation loop of wait_for_vpn: up to n stability probes
starting at stream index i, stopping at the first failure.  Returns the
consumed probe results and whether all n succeeded. -/
def stability_probes (probe : Nat → Bool) : Nat → Nat → List Bool × Bool
  | _, 0 => ([], true)
  | i, n + 1 =>
    if probe i then
      let r := stability_probes probe (i + 1) n
      (true :: r.1, r.2)
    else ([false], false)

/-- Embedding of wait_for_vpn over a stream of probe outcomes.  The
polling while-loop consumes probes until one succeeds; then
VPN_STABILITY_CHECKS confirmation probes run, and any confirmation
failure restarts the whole sequence (the source recurses).  The fuel
argument bounds the loop so the function is total; none means the fuel
ran out before the connection stabilized.  On success the returned list
is every probe outcome consumed, in order. -/
def wait_for_vpn (probe : Nat → Bool) : Nat → Nat → Option (List Bool)
  | 0, _ => none
  | fuel + 1, i =>
    if probe i then
      let st := stability_probes probe (i + 1) VPN_STABILITY_CHECKS
      if st.2 then some (true :: st.1)
      else
        match wait_for_vpn probe fuel (i + 1 + st.1.length) with
        | some rest => some ((true :: st.1) ++ rest)
        | none => none
    else
      match wait_for_vpn probe fuel (i + 1) with
      | some rest => some (false :: rest)
      | none => none

/- ## Batch controller -/

/-- The mutable state of run's processing loop.  exitosos and fallidos are
embedded as integers so that non-negativity is a statement rather than a
typing artifact.  recoveries counts the recovery cycles triggered (an
instrumentation counter; the source logs each such cycle). -/
structure LoopSt where
  exitosos : Int
  fallidos : Int
  consecutiveFailures : Nat
  failedRows : List Row
  results : List Row
  failures : List FailRow
  headerWritten : Bool
  calls : Nat
  recoveries : Nat
  totalRetries : Nat
deriving DecidableEq, Repr

/-- The fixed data of one run invocation together with its oracles:
attemptAt gives the primitive outcomes of the n-th process_dni call, and
vpnUpAt the check_vpn answer at the n-th failure-streak trigger. -/
structure Ctx where
  cm : CharModel
  coords : CoordsV
  dniCol : String
  nombreCol : String
  fieldnames : List String
  attemptAt : Nat → Attempt
  vpnUpAt : Nat → Bool

/-- The k-th process_dni call of the run, on the given record. -/
def callOut (ctx : Ctx) (k : Nat) (row : Row) : PDniOut :=
  process_dni ctx.cm ctx.coords (ctx.attemptAt k) ctx.dniCol ctx.nombreCol
    ctx.fieldnames row

/-- Append one call's file output to the loop state and count the call. -/
def absorbCall (s : LoopSt) (out : PDniOut) : LoopSt :=
  { s with results := s.results ++ out.resRows,
           failures := s.failures ++ out.failRows,
           calls := s.calls + 1 }

/-- The replay loop of the VPN-down recovery: retry every record of the
failure streak; a retry that now succeeds credits exitosos and debits
fallidos.  The Bool is true when a propagated interrupt aborted the run
mid-replay. -/
def replayFoldE (ctx : Ctx) : List Row → LoopSt → LoopSt × Bool
  | [], s => (s, false)
  | r :: rest, s =>
    let out := callOut ctx s.calls r
    let s1 := { absorbCall s out with totalRetries := s.totalRetries + 1 }
    match out.status with
    | .raised _ => (s1, true)
    | .ok PResult.ok =>
      replayFoldE ctx rest
        { s1 with exitosos := s1.exitosos + 1, fallidos := s1.fallidos - 1,
                  headerWritten := true }
    | .ok _ => replayFoldE ctx rest s1

/-- How many of the replayed records' calls return ok, counting from call
index k. -/
def countOk (ctx : Ctx) : Nat → List Row → Nat
  | _, [] => 0
  | k, r :: rest =>
    (if (callOut ctx k r).status = .ok PResult.ok then 1 else 0) + countOk ctx (k + 1) rest

/-- The VPN-down arm of the streak recovery: wait_for_vpn, the reconnect
click and the popup-clearing loop are opaque recovery actions with no
effect on the modelled state; then the streak is replayed and, unless the
replay was aborted, the streak is reset. -/
def vpnDownBranch (ctx : Ctx) (s : LoopSt) : LoopSt × Bool :=
  let p := replayFoldE ctx s.failedRows s
  if p.2 then p
  else ({ p.1 with consecutiveFailures := 0, failedRows := [] }, false)

/-- The VPN-up arm of the streak recovery: check_system_blocked and
execute_system_recovery are opaque recovery actions with no effect on the
modelled state; the streak is reset either way. -/
def vpnUpBranch (s : LoopSt) : LoopSt × Bool :=
  ({ s with consecutiveFailures := 0, failedRows := [] }, false)

/-- One iteration of run's while-loop on one record: invoke process_dni,
classify, update the tallies, and at MAX_CONSECUTIVE_FAILURES consecutive
failures run exactly one recovery cycle.  The Bool is true when a
propagated interrupt aborted the run. -/
def stepE (ctx : Ctx) (row : Row) (s : LoopSt) : LoopSt × Bool :=
  let out := callOut ctx s.calls row
  let s1 := absorbCall s out
  match out.status with
  | .raised _ => (s1, true)
  | .ok r =>
    if r = PResult.ok then
      ({ s1 with headerWritten := true, exitosos := s1.exitosos + 1,
                 consecutiveFailures := 0, failedRows := [] }, false)
    else if r = PResult.vpnIssue ∨ r = PResult.error then
      let s3 := { s1 with fallidos := s1.fallidos + 1,
                          consecutiveFailures := s1.consecutiveFailures + 1,
                          failedRows := s1.failedRows ++ [row] }
      if MAX_CONSECUTIVE_FAILURES ≤ s3.consecutiveFailures then
        let s4 := { s3 with recoveries := s3.recoveries + 1 }
        if ctx.vpnUpAt s3.recoveries = false then vpnDownBranch ctx s4 else vpnUpBranch s4
      else (s3, false)
    else
      ({ s1 with fallidos := s1.fallidos + 1, consecutiveFailures := 0,
                 failedRows := [] }, false)

/-- run's while-loop over the selected records, stopping early only when
an iteration propagated the interrupt. -/
def runLoopE (ctx : Ctx) : List Row → LoopSt → LoopSt × Bool
  | [], s => (s, false)
  | r :: rest, s =>
    let p := stepE ctx r s
    if p.2 then p else runLoopE ctx rest p.1

/-- The loop state at the start of a run. -/
def initSt : LoopSt := ⟨0, 0, 0, [], [], [], false, 0, 0, 0⟩

/-- The coordinate-gated part of run: load and validate the coordinates
file, exiting with code 1 before the processing loop ever executes when
it is missing or incomplete. -/
def runProg (cm : CharModel) (dniCol nombreCol : String) (fieldnames : List String)
    (attemptAt : Nat → Attempt) (vpnUpAt : Nat → Bool)
    (coordsFile : Option RawCoords) (registros : List Row) :
    Except Nat (LoopSt × Bool) :=
  match load_coords coordsFile with
  | .error code => .error code
  | .ok raw =>
    .ok (runLoopE ⟨cm, toCoordsV raw, dniCol, nombreCol, fieldnames, attemptAt, vpnUpAt⟩
      registros initSt)

/- ## Concrete instances used by witnesses and counterexamples -/

/-- A concrete character model: identity decomposition, no combining
marks, ASCII upper-casing, standard whitespace. -/
def cm0 : CharModel :=
  ⟨fun ch => [ch], fun _ => false, Char.toUpper, Char.isWhitespace⟩

/-- A validated coordinate set with every action at position (1, 1). -/
def cv0 : CoordsV :=
  ⟨⟨1, 1⟩, ⟨1, 1⟩, ⟨1, 1⟩, ⟨1, 1⟩, ⟨1, 1⟩, ⟨1, 1⟩,
   ⟨1, 1⟩, ⟨1, 1⟩, ⟨1, 1⟩, ⟨1, 1⟩, ⟨1, 1⟩, ⟨1, 1⟩⟩

/-- An exception-free attempt whose clipboard reads are all empty. -/
def attempt0 : Attempt :=
  ⟨none, none, "", none, "", none, none, none, none, "", none, none, "", none, none⟩

/-- A sample input record. -/
def row0 : Row := [("Nombre del Cliente", "Juan Perez"), ("DNI", "30111222")]

/-- The output field names for the sample record. -/
def fns0 : List String := ["Nombre del Cliente", "DNI", "Ubicacion"]

/- ## Record-processor lemmas shared by the claims about process_dni -/

/-- When the failed-name arm completes without an exception it always
returns vpnIssue with exactly the one failure row appended earlier. -/
theorem nameFailBranch_ok_rows (c : CoordsV) (a : Attempt) (dni : String) :
    ∀ r res fl cl, nameFailBranch c a dni = (.ok r, res, fl, cl) →
      r = PResult.vpnIssue ∧ res = [] ∧ fl.length = 1 := by
  intro r res fl cl h
  unfold nameFailBranch at h
  repeat' split at h
  all_goals simp only [Prod.ext_iff] at h
  all_goals obtain ⟨h1, h2, h3, h4⟩ := h
  all_goals subst_vars
  all_goals simp_all

/-- When the validated-name arm completes without an exception it returns
ok with exactly one results row, or error with exactly one failure row. -/
theorem addrBranch_ok_rows (c : CoordsV) (a : Attempt) (fns : List String)
    (row : Row) (dni : String) :
    ∀ r res fl cl, addrBranch c a fns row dni = (.ok r, res, fl, cl) →
      (r = PResult.ok ∧ res.length = 1 ∧ fl = []) ∨
      (r = PResult.error ∧ res = [] ∧ fl.length = 1) := by
  intro r res fl cl h
  unfold addrBranch at h
  repeat' split at h
  all_goals simp only [Prod.ext_iff] at h
  all_goals obtain ⟨h1, h2, h3, h4⟩ := h
  all_goals subst_vars
  all_goals simp_all

/-- Row accounting of the try-block: whenever the body completes without
an exception, a successful status comes with exactly one results row and
no failure row, and a non-successful status with exactly one failure row
and no results row. -/
theorem body_ok_rows (cm : CharModel) (c : CoordsV) (a : Attempt)
    (dniCol nombreCol : String) (fns : List String) (row : Row) :
    ∀ r res fl cl,
      process_dni_body cm c a dniCol nombreCol fns row = (.ok r, res, fl, cl) →
      (r = PResult.ok ∧ res.length = 1 ∧ fl = []) ∨
      (r ≠ PResult.ok ∧ res = [] ∧ fl.length = 1) := by
  intro r res fl cl h
  unfold process_dni_body at h
  cases hs : search_dni a with
  | raised e => rw [hs] at h; simp at h
  | ok u =>
    rw [hs] at h
    cases hc : copy_and_validate_name cm a (pyStrip (rowGet row nombreCol)) with
    | raised e => simp only [hc] at h; simp at h
    | ok ov =>
      cases ov with
      | none =>
        simp only [hc] at h
        rcases nameFailBranch_ok_rows c a _ r res fl cl h with ⟨h1, h2, h3⟩
        exact Or.inr ⟨by simp [h1], h2, h3⟩
      | some v =>
        simp only [hc] at h
        rcases addrBranch_ok_rows c a fns row _ r res fl cl h with
          ⟨h1, h2, h3⟩ | ⟨h1, h2, h3⟩
        · exact Or.inl ⟨h1, h2, h3⟩
        · exact Or.inr ⟨by simp [h1], h2, h3⟩

/-- An exception-free name copy completes. -/
theorem copy_and_validate_name_noexc (cm : CharModel) (a : Attempt)
    (nombre : String) (hn : a.nameUiExc = none) :
    ∃ ov, copy_and_validate_name cm a nombre = .ok ov := by
  unfold copy_and_validate_name
  rw [hn]
  dsimp only
  split
  · exact ⟨_, rfl⟩
  · split
    · exact ⟨_, rfl⟩
    · exact ⟨_, rfl⟩

/-- An exception-free blocked-system check completes. -/
theorem check_system_blocked_noexc (c : CoordsV) (a : Attempt)
    (hb : a.blockedUiExc = none) :
    ∃ b, check_system_blocked c a = .ok b := by
  unfold check_system_blocked
  rw [hb]
  split
  · exact ⟨_, rfl⟩
  · exact ⟨_, rfl⟩

/-- An exception-free recovery sequence completes. -/
theorem execute_system_recovery_noexc (c : CoordsV) (a : Attempt)
    (hrec : a.recExc = none) :
    ∃ b n, execute_system_recovery c a = (.ok b, n) := by
  unfold execute_system_recovery
  rw [hrec]
  dsimp only
  split
  · split
    · split
      · exact ⟨_, _, rfl⟩
      · exact ⟨_, _, rfl⟩
    · exact ⟨_, _, rfl⟩
  · exact ⟨_, _, rfl⟩

/-- An exception-free address copy completes. -/
theorem copy_address_with_retry_noexc (c : CoordsV) (a : Attempt)
    (ha1 : a.addrUiExc1 = none) (hcar : a.cartelExc = none)
    (ha2 : a.addrUiExc2 = none) :
    ∃ od, copy_address_with_retry c a = .ok od := by
  unfold copy_address_with_retry
  rw [ha1]
  dsimp only
  split
  · exact ⟨_, rfl⟩
  · split
    · rw [hcar]
      dsimp only
      rw [ha2]
      dsimp only
      split
      · exact ⟨_, rfl⟩
      · exact ⟨_, rfl⟩
    · exact ⟨_, rfl⟩

/-- On an exception-free attempt the failed-name arm never raises. -/
theorem nameFailBranch_noexc (c : CoordsV) (a : Attempt) (dni : String)
    (hb : a.blockedUiExc = none) (hnf : a.nfCloseExc = none) (hrec : a.recExc = none) :
    ∃ r res fl cl, nameFailBranch c a dni = (.ok r, res, fl, cl) := by
  obtain ⟨b, hcb⟩ := check_system_blocked_noexc c a hb
  obtain ⟨b2, n, hrec2⟩ := execute_system_recovery_noexc c a hrec
  unfold nameFailBranch
  simp only [hcb]
  cases b
  · exact ⟨_, _, _, _, rfl⟩
  · simp only [hnf, hrec2]
    exact ⟨_, _, _, _, rfl⟩

/-- On an exception-free attempt the validated-name arm never raises. -/
theorem addrBranch_noexc (c : CoordsV) (a : Attempt) (fns : List String)
    (row : Row) (dni : String) (hd : a.detailExc = none) (ha1 : a.addrUiExc1 = none)
    (hcar : a.cartelExc = none) (ha2 : a.addrUiExc2 = none) (hcl : a.closeExc = none) :
    ∃ r res fl cl, addrBranch c a fns row dni = (.ok r, res, fl, cl) := by
  obtain ⟨od, hca⟩ := copy_address_with_retry_noexc c a ha1 hcar ha2
  unfold addrBranch
  simp only [hd, hca]
  cases od
  · simp only [hcl]
    exact ⟨_, _, _, _, rfl⟩
  · simp only [hcl]
    exact ⟨_, _, _, _, rfl⟩

/-- On an exception-free attempt the body never raises. -/
theorem body_noexc_completes (cm : CharModel) (c : CoordsV) (a : Attempt)
    (dniCol nombreCol : String) (fns : List String) (row : Row) (h1 : a.NoExc) :
    ∃ r res fl cl,
      process_dni_body cm c a dniCol nombreCol fns row = (.ok r, res, fl, cl) := by
  obtain ⟨hs, hn, hb, hnf, hrec, hd, ha1, hcar, ha2, hcl, hh⟩ := h1
  obtain ⟨ov, hcv⟩ := copy_and_validate_name_noexc cm a (pyStrip (rowGet row nombreCol)) hn
  unfold process_dni_body search_dni
  simp only [hs, hcv]
  cases ov
  · exact nameFailBranch_noexc c a _ hb hnf hrec
  · exact addrBranch_noexc c a fns row _ hd ha1 hcar ha2 hcl

/-- When the body completes, the exception handler is not entered and the
call returns the body's outcome unchanged. -/
theorem process_dni_of_body_ok (cm : CharModel) (c : CoordsV) (a : Attempt)
    (dniCol nombreCol : String) (fns : List String) (row : Row)
    (r : PResult) (res : List Row) (fl : List FailRow) (cl : Nat)
    (h : process_dni_body cm c a dniCol nombreCol fns row = (.ok r, res, fl, cl)) :
    process_dni cm c a dniCol nombreCol fns row = ⟨.ok r, res, fl, cl⟩ := by
  unfold process_dni
  rw [h]

/-- When the body raises: the interrupt is re-raised unchanged, and any
other exception is converted by the handler into an error status (or the
re-raised interrupt of the handler's own close click) after appending one
more failure row. -/
theorem process_dni_of_body_raised (cm : CharModel) (c : CoordsV) (a : Attempt)
    (dniCol nombreCol : String) (fns : List String) (row : Row)
    (e : Exc) (res : List Row) (fl : List FailRow) (cl : Nat)
    (h : process_dni_body cm c a dniCol nombreCol fns row = (.raised e, res, fl, cl)) :
    (e = Exc.kbInterrupt ∧
      process_dni cm c a dniCol nombreCol fns row = ⟨.raised .kbInterrupt, res, fl, cl⟩) ∨
    (∃ m, e = Exc.err m ∧
      ((process_dni cm c a dniCol nombreCol fns row).status = ExecR.ok PResult.error ∨
       (process_dni cm c a dniCol nombreCol fns row).status = ExecR.raised Exc.kbInterrupt) ∧
      (process_dni cm c a dniCol nombreCol fns row).resRows = res ∧
      ∃ fr, (process_dni cm c a dniCol nombreCol fns row).failRows = fl ++ [fr]) := by
  unfold process_dni
  rw [h]
  cases e with
  | kbInterrupt => exact Or.inl ⟨rfl, rfl⟩
  | err m =>
    refine Or.inr ⟨m, rfl, ?_⟩
    dsimp only
    split
    · split
      · exact ⟨Or.inr rfl, rfl, _, rfl⟩
      · exact ⟨Or.inl rfl, rfl, _, rfl⟩
      · exact ⟨Or.inl rfl, rfl, _, rfl⟩
    · exact ⟨Or.inl rfl, rfl, _, rfl⟩

/-- With validated coordinates an exception-free recovery sequence does
its full reconnect, RECOVERY_CLOSE_CLICKS close clicks, and home click. -/
theorem execute_system_recovery_valid (c : CoordsV) (a : Attempt)
    (hrec : a.recExc = none) (h2 : c.Valid) :
    execute_system_recovery c a = (.ok true, RECOVERY_CLOSE_CLICKS) := by
  obtain ⟨_, _, _, _, _, _, _, hclose, hrecon, _, _, hhouse⟩ := h2
  unfold execute_system_recovery
  rw [hrec]
  simp [hclose, hrecon, hhouse]

/-- The exact shape of the failed-name arm on an exception-free attempt
with validated coordinates: one failure row, vpnIssue, and either zero
close clicks (not blocked) or the initial close plus the recovery's
RECOVERY_CLOSE_CLICKS (blocked). -/
theorem nameFailBranch_noexc_closes (c : CoordsV) (a : Attempt) (dni : String)
    (hnf : a.nfCloseExc = none) (hrec : a.recExc = none) (h2 : c.Valid) :
    ∀ b, check_system_blocked c a = .ok b →
      nameFailBranch c a dni =
        (.ok .vpnIssue, [], [⟨dni, "no creado - nombre no coincide o sin nombre"⟩],
         if b then 1 + RECOVERY_CLOSE_CLICKS else 0) := by
  intro b hcb2
  unfold nameFailBranch
  rw [hcb2]
  cases b
  · rfl
  · dsimp only
    rw [hnf]
    dsimp only
    rw [execute_system_recovery_valid c a hrec h2]
    rfl

/-- Validity of a coordinate set is a checkable property. -/
instance (c : CoordsV) : Decidable c.Valid := by
  unfold CoordsV.Valid
  infer_instance

/-- Exception-freedom of an attempt is a checkable property. -/
instance (a : Attempt) : Decidable a.NoExc := by
  unfold Attempt.NoExc
  infer_instance

/-- The validated-name arm of an exception-free attempt performs exactly
one close click and returns ok or error. -/
theorem addrBranch_noexc_closes (c : CoordsV) (a : Attempt) (fns : List String)
    (row : Row) (dni : String) (hd : a.detailExc = none) (ha1 : a.addrUiExc1 = none)
    (hcar : a.cartelExc = none) (ha2 : a.addrUiExc2 = none) (hcl : a.closeExc = none) :
    ∃ r res fl, addrBranch c a fns row dni = (.ok r, res, fl, 1) ∧
      (r = PResult.ok ∨ r = PResult.error) := by
  obtain ⟨od, hca⟩ := copy_address_with_retry_noexc c a ha1 hcar ha2
  unfold addrBranch
  simp only [hd, hca]
  cases od
  · simp only [hcl]
    exact ⟨_, _, _, rfl, Or.inr rfl⟩
  · simp only [hcl]
    exact ⟨_, _, _, rfl, Or.inl rfl⟩

/-- C1 counterexample: with validated coordinates, an attempt whose name
copy reads an empty clipboard while the blocked-system probe finds the
sentinel text (system not blocked) returns its vpnIssue outcome after
zero close_btn clicks, refuting the claim that exactly one close action
is attempted on every path, in particular the name-validation one. -/
theorem c1_counterexample :
    (process_dni cm0 cv0 { attempt0 with blockedClip := EXPECTED_POPUP_TEXT }
      "DNI" "Nombre del Cliente" fns0 row0).status = ExecR.ok PResult.vpnIssue ∧
    (process_dni cm0 cv0 { attempt0 with blockedClip := EXPECTED_POPUP_TEXT }
      "DNI" "Nombre del Cliente" fns0 row0).closes = 0 ∧
    CoordsV.Valid cv0 := by
  refine ⟨?_, ?_, ?_⟩ <;> decide

/-- C1 (amended): on an exception-free attempt with validated coordinates,
a name-validation failure closes zero times when the system is not
blocked and 1 + RECOVERY_CLOSE_CLICKS times when it is, while every
attempt that passes name validation performs exactly one close click;
the outcome is always one of the three terminal statuses. -/
theorem c1_close_policy (cm : CharModel) (c : CoordsV) (a : Attempt)
    (dniCol nombreCol : String) (fns : List String) (row : Row)
    (h1 : a.NoExc) (h2 : c.Valid) :
    ((process_dni cm c a dniCol nombreCol fns row).status = ExecR.ok PResult.vpnIssue →
      (process_dni cm c a dniCol nombreCol fns row).closes =
        (if check_system_blocked c a = ExecR.ok true then 1 + RECOVERY_CLOSE_CLICKS else 0))
    ∧ ((process_dni cm c a dniCol nombreCol fns row).status ≠ ExecR.ok PResult.vpnIssue →
      (process_dni cm c a dniCol nombreCol fns row).closes = 1)
    ∧ ((process_dni cm c a dniCol nombreCol fns row).status = ExecR.ok PResult.ok ∨
       (process_dni cm c a dniCol nombreCol fns row).status = ExecR.ok PResult.vpnIssue ∨
       (process_dni cm c a dniCol nombreCol fns row).status = ExecR.ok PResult.error) := by
  obtain ⟨hs, hn, hb, hnf, hrec, hd, ha1, hcar, ha2, hcl, hh⟩ := h1
  obtain ⟨ov, hcv⟩ := copy_and_validate_name_noexc cm a (pyStrip (rowGet row nombreCol)) hn
  obtain ⟨b, hcb2⟩ := check_system_blocked_noexc c a hb
  cases ov with
  | none =>
    have hbody : process_dni_body cm c a dniCol nombreCol fns row =
        nameFailBranch c a (pyStrip (rowGet row dniCol)) := by
      unfold process_dni_body search_dni
      simp only [hs, hcv]
    have hnfb := nameFailBranch_noexc_closes c a (pyStrip (rowGet row dniCol)) hnf hrec h2 b hcb2
    have hpd := process_dni_of_body_ok cm c a dniCol nombreCol fns row _ _ _ _
      (hbody.trans hnfb)
    rw [hpd]
    refine ⟨fun _ => ?_, fun hne => absurd rfl hne, Or.inr (Or.inl rfl)⟩
    cases b
    · simp [hcb2]
    · simp [hcb2]
  | some v =>
    have hbody : process_dni_body cm c a dniCol nombreCol fns row =
        addrBranch c a fns row (pyStrip (rowGet row dniCol)) := by
      unfold process_dni_body search_dni
      simp only [hs, hcv]
    obtain ⟨r, res, fl, haddr, hr⟩ :=
      addrBranch_noexc_closes c a fns row (pyStrip (rowGet row dniCol)) hd ha1 hcar ha2 hcl
    have hpd := process_dni_of_body_ok cm c a dniCol nombreCol fns row _ _ _ _
      (hbody.trans haddr)
    rw [hpd]
    refine ⟨fun hvi => ?_, fun _ => rfl, ?_⟩
    · rcases hr with h3 | h3 <;> simp [h3] at hvi
    · rcases hr with h3 | h3
      · exact Or.inl (by rw [h3])
      · exact Or.inr (Or.inr (by rw [h3]))

/-- C1 witness: the amended close policy at a concrete blocked
name-validation failure. -/
theorem c1_witness :
    (process_dni cm0 cv0 attempt0 "DNI" "Nombre del Cliente" fns0 row0).status
      = ExecR.ok PResult.vpnIssue ∧
    (process_dni cm0 cv0 attempt0 "DNI" "Nombre del Cliente" fns0 row0).closes
      = (if check_system_blocked cv0 attempt0 = ExecR.ok true then
          1 + RECOVERY_CLOSE_CLICKS else 0) :=
  ⟨by decide,
   (c1_close_policy cm0 cv0 attempt0 "DNI" "Nombre del Cliente" fns0 row0
      (by decide) (by decide)).1 (by decide)⟩

/-- C4 counterexample: when the close click raises after the address was
already persisted, the caught exception routes through the handler and a
failure row is appended as well, so the attempt writes one row to EACH
file — refuting that exactly one row goes to exactly one output file. -/
theorem c4_counterexample :
    (process_dni cm0 cv0
      { attempt0 with nameClip := "Perez Juan", addrClip1 := "Av. Siempre Viva 123",
                      closeExc := some (Exc.err "click fallo") }
      "DNI" "Nombre del Cliente" fns0 row0).status = ExecR.ok PResult.error ∧
    (process_dni cm0 cv0
      { attempt0 with nameClip := "Perez Juan", addrClip1 := "Av. Siempre Viva 123",
                      closeExc := some (Exc.err "click fallo") }
      "DNI" "Nombre del Cliente" fns0 row0).resRows.length = 1 ∧
    (process_dni cm0 cv0
      { attempt0 with nameClip := "Perez Juan", addrClip1 := "Av. Siempre Viva 123",
                      closeExc := some (Exc.err "click fallo") }
      "DNI" "Nombre del Cliente" fns0 row0).failRows.length = 1 := by
  refine ⟨?_, ?_, ?_⟩ <;> decide

/-- C4 (amended): process_dni only ever propagates the operator
interrupt; every attempt that returns normally appends at least one row;
and on an exception-free attempt it appends exactly one row to exactly
one file — the results file iff the attempt succeeded. -/
theorem c4_record_boundary (cm : CharModel) (c : CoordsV) (a : Attempt)
    (dniCol nombreCol : String) (fns : List String) (row : Row) :
    (∀ e, (process_dni cm c a dniCol nombreCol fns row).status = ExecR.raised e →
        e = Exc.kbInterrupt)
    ∧ (∀ r, (process_dni cm c a dniCol nombreCol fns row).status = ExecR.ok r →
        1 ≤ (process_dni cm c a dniCol nombreCol fns row).resRows.length +
            (process_dni cm c a dniCol nombreCol fns row).failRows.length)
    ∧ (a.NoExc →
        ((process_dni cm c a dniCol nombreCol fns row).status = ExecR.ok PResult.ok ∧
          (process_dni cm c a dniCol nombreCol fns row).resRows.length = 1 ∧
          (process_dni cm c a dniCol nombreCol fns row).failRows = [])
        ∨ (((process_dni cm c a dniCol nombreCol fns row).status = ExecR.ok PResult.vpnIssue ∨
            (process_dni cm c a dniCol nombreCol fns row).status = ExecR.ok PResult.error) ∧
           (process_dni cm c a dniCol nombreCol fns row).resRows = [] ∧
           (process_dni cm c a dniCol nombreCol fns row).failRows.length = 1)) := by
  refine ⟨?_, ?_, ?_⟩
  · intro e he
    rcases hbd : process_dni_body cm c a dniCol nombreCol fns row with ⟨st, res, fl, cl⟩
    cases st with
    | ok r =>
      have hpd := process_dni_of_body_ok cm c a dniCol nombreCol fns row r res fl cl hbd
      rw [hpd] at he
      simp at he
    | raised e0 =>
      rcases process_dni_of_body_raised cm c a dniCol nombreCol fns row e0 res fl cl hbd with
        ⟨he0, hpd⟩ | ⟨m, he0, hst, hres, hfl⟩
      · rw [hpd] at he
        simpa using he.symm
      · rcases hst with h4 | h4
        · exact absurd (he.symm.trans h4) (by simp)
        · simpa using (he.symm.trans h4)
  · intro r he
    rcases hbd : process_dni_body cm c a dniCol nombreCol fns row with ⟨st, res, fl, cl⟩
    cases st with
    | ok r0 =>
      have hpd := process_dni_of_body_ok cm c a dniCol nombreCol fns row r0 res fl cl hbd
      rw [hpd]
      rcases body_ok_rows cm c a dniCol nombreCol fns row r0 res fl cl hbd with
        ⟨_, h5, h6⟩ | ⟨_, h5, h6⟩
      · simp [h5, h6]
      · simp [h5, h6]
    | raised e0 =>
      rcases process_dni_of_body_raised cm c a dniCol nombreCol fns row e0 res fl cl hbd with
        ⟨he0, hpd⟩ | ⟨m, he0, hst, hres, hfl⟩
      · rw [hpd] at he
        simp at he
      · rcases hfl with ⟨fr, hfl2⟩
        rw [hfl2]
        simp only [List.length_append, List.length_cons, List.length_nil]
        omega
  · intro hno
    obtain ⟨r, res, fl, cl, hbd⟩ := body_noexc_completes cm c a dniCol nombreCol fns row hno
    have hpd := process_dni_of_body_ok cm c a dniCol nombreCol fns row r res fl cl hbd
    rw [hpd]
    rcases body_ok_rows cm c a dniCol nombreCol fns row r res fl cl hbd with
      ⟨h4, h5, h6⟩ | ⟨h4, h5, h6⟩
    · exact Or.inl ⟨by rw [h4], h5, h6⟩
    · refine Or.inr ⟨?_, h5, h6⟩
      cases r
      · exact absurd rfl h4
      · exact Or.inl rfl
      · exact Or.inr rfl

/-- C4 witness: the amended per-record boundary behavior at a concrete
exception-free attempt. -/
theorem c4_witness :
    Attempt.NoExc attempt0 ∧
    (((process_dni cm0 cv0 attempt0 "DNI" "Nombre del Cliente" fns0 row0).status
        = ExecR.ok PResult.ok ∧
      (process_dni cm0 cv0 attempt0 "DNI" "Nombre del Cliente" fns0 row0).resRows.length = 1 ∧
      (process_dni cm0 cv0 attempt0 "DNI" "Nombre del Cliente" fns0 row0).failRows = [])
    ∨ (((process_dni cm0 cv0 attempt0 "DNI" "Nombre del Cliente" fns0 row0).status
          = ExecR.ok PResult.vpnIssue ∨
        (process_dni cm0 cv0 attempt0 "DNI" "Nombre del Cliente" fns0 row0).status
          = ExecR.ok PResult.error) ∧
       (process_dni cm0 cv0 attempt0 "DNI" "Nombre del Cliente" fns0 row0).resRows = [] ∧
       (process_dni cm0 cv0 attempt0 "DNI" "Nombre del Cliente" fns0 row0).failRows.length = 1)) :=
  ⟨by decide,
   (c4_record_boundary cm0 cv0 attempt0 "DNI" "Nombre del Cliente" fns0 row0).2.2 (by decide)⟩

/-- Truthiness of one coordinate component, spelled out. -/
theorem axTruthy_iff (o : Option Int) :
    axTruthy o = true ↔ ∃ v, o = some v ∧ v ≠ 0 := by
  cases o with
  | none => simp [axTruthy]
  | some v => simp [axTruthy, bne_iff_ne]

/-- C7: validate_coordinates accepts exactly when each of the twelve
required action names maps to a coordinate with non-zero x and non-zero
y; load_coords exits with code 1 precisely on a missing file or failed
validation; and with an invalid coordinates file the batch program
terminates with exit code 1 before the processing loop runs a single
record. -/
theorem c7_coordinate_gate :
    required_keys.length = 12
    ∧ (∀ coords : RawCoords,
        ((validate_coordinates coords).1 = true ↔
          ∀ k ∈ required_keys, ∃ xv yv,
            (cGet coords k).x = some xv ∧ xv ≠ 0 ∧
            (cGet coords k).y = some yv ∧ yv ≠ 0))
    ∧ (∀ oc : Option RawCoords,
        load_coords oc = .error 1 ↔
          (oc = none ∨ ∃ cs, oc = some cs ∧ (validate_coordinates cs).1 = false))
    ∧ (∀ (cm : CharModel) (dniCol nombreCol : String) (fns : List String)
        (att : Nat → Attempt) (vup : Nat → Bool) (cs : RawCoords) (rows : List Row),
        (validate_coordinates cs).1 = false →
        runProg cm dniCol nombreCol fns att vup (some cs) rows = .error 1) := by
  refine ⟨by decide, ?_, ?_, ?_⟩
  · intro coords
    unfold validate_coordinates
    dsimp only
    rw [List.isEmpty_iff, List.filter_eq_nil_iff]
    constructor
    · intro h k hk
      have h2 := h k hk
      simp only [Bool.not_eq_true', Bool.not_eq_false, Bool.and_eq_true] at h2
      obtain ⟨hx, hy⟩ := h2
      obtain ⟨xv, hxv, hxv0⟩ := (axTruthy_iff _).mp hx
      obtain ⟨yv, hyv, hyv0⟩ := (axTruthy_iff _).mp hy
      exact ⟨xv, yv, hxv, hxv0, hyv, hyv0⟩
    · intro h k hk
      obtain ⟨xv, yv, hxv, hxv0, hyv, hyv0⟩ := h k hk
      simp only [Bool.not_eq_true', Bool.not_eq_false, Bool.and_eq_true]
      exact ⟨(axTruthy_iff _).mpr ⟨xv, hxv, hxv0⟩, (axTruthy_iff _).mpr ⟨yv, hyv, hyv0⟩⟩
  · intro oc
    cases oc with
    | none => simp [load_coords]
    | some cs =>
      unfold load_coords
      dsimp only
      by_cases hv : (validate_coordinates cs).1 = true
      · rw [if_pos hv]
        simp [hv]
      · rw [if_neg hv]
        simp only [Bool.not_eq_true] at hv
        simp [hv]
  · intro cm dniCol nombreCol fns att vup cs rows hval
    unfold runProg load_coords
    dsimp only
    rw [if_neg (by simp [hval])]

/-- C7 witness: an empty coordinates file fails validation and makes the
program exit with code 1 before processing. -/
theorem c7_witness :
    (validate_coordinates []).1 = false ∧
    runProg cm0 "DNI" "Nombre del Cliente" fns0 (fun _ => attempt0) (fun _ => true)
      (some []) [] = .error 1 :=
  ⟨by decide,
   c7_coordinate_gate.2.2.2 cm0 "DNI" "Nombre del Cliente" fns0
     (fun _ => attempt0) (fun _ => true) [] [] (by decide)⟩

/-- A confirmation cycle that reports success consumed exactly its n
probes and every one of them succeeded. -/
theorem stability_probes_true (probe : Nat → Bool) :
    ∀ n i, (stability_probes probe i n).2 = true →
      (stability_probes probe i n).1 = List.replicate n true := by
  intro n
  induction n with
  | zero => intro i _; rfl
  | succ m ih =>
    intro i h
    simp only [stability_probes] at h ⊢
    by_cases hp : probe i = true
    · rw [if_pos hp] at h ⊢
      dsimp only at h ⊢
      rw [ih (i + 1) h]
      rfl
    · rw [if_neg hp] at h
      simp at h

/-- C8: whenever wait_for_vpn returns, the consumed probe sequence ends
with a successful connectivity probe followed by all VPN_STABILITY_CHECKS
confirmation probes succeeding with no intervening failure; a failed
confirmation probe always restarts the whole stabilization sequence, so
the function never returns out of a confirmation cycle that contained a
failure. -/
theorem c8_wait_for_vpn_suffix (probe : Nat → Bool) :
    ∀ (fuel i : Nat) (l : List Bool), wait_for_vpn probe fuel i = some l →
      ∃ pre, l = pre ++ [true, true, true, true] := by
  intro fuel
  induction fuel with
  | zero => intro i l h; simp [wait_for_vpn] at h
  | succ f ih =>
    intro i l h
    unfold wait_for_vpn at h
    by_cases hp : probe i = true
    · rw [if_pos hp] at h
      dsimp only at h
      by_cases hst : (stability_probes probe (i + 1) VPN_STABILITY_CHECKS).2 = true
      · rw [if_pos hst] at h
        have hrep := stability_probes_true probe VPN_STABILITY_CHECKS (i + 1) hst
        simp only [Option.some.injEq] at h
        exact ⟨[], by rw [← h, hrep]; rfl⟩
      · rw [if_neg hst] at h
        cases hr : wait_for_vpn probe f
            (i + 1 + (stability_probes probe (i + 1) VPN_STABILITY_CHECKS).1.length) with
        | none => rw [hr] at h; simp at h
        | some rest =>
          rw [hr] at h
          simp only [Option.some.injEq] at h
          obtain ⟨pre, hpre⟩ := ih _ rest hr
          exact ⟨(true :: (stability_probes probe (i + 1) VPN_STABILITY_CHECKS).1) ++ pre, by
            rw [← h, hpre]; simp⟩
    · rw [if_neg hp] at h
      cases hr : wait_for_vpn probe f (i + 1) with
      | none => rw [hr] at h; simp at h
      | some rest =>
        rw [hr] at h
        simp only [Option.some.injEq] at h
        obtain ⟨pre, hpre⟩ := ih _ rest hr
        exact ⟨false :: pre, by rw [← h, hpre]; rfl⟩

/-- C8 witness: a stream that is up from the start stabilizes after one
polling probe and three confirmation probes. -/
theorem c8_witness :
    wait_for_vpn (fun _ => true) 1 0 = some [true, true, true, true] ∧
    ∃ pre, [true, true, true, true] = pre ++ [true, true, true, true] :=
  ⟨by decide,
   c8_wait_for_vpn_suffix (fun _ => true) 1 0 [true, true, true, true] (by decide)⟩

/-- The resume filter only looks at membership of each record's identity
number, so two progress sets agreeing on the rows select the same
records. -/
theorem select_registros_congr (dniCol : String) (rows : List Row) (S T : Finset String)
    (h : ∀ r ∈ rows, (pyStrip (rowGet r dniCol) ∈ S ↔ pyStrip (rowGet r dniCol) ∈ T)) :
    select_registros dniCol rows S = select_registros dniCol rows T := by
  unfold select_registros
  apply List.filter_congr
  intro r hr
  have h2 := h r hr
  simp only [decide_eq_decide]
  constructor
  · rintro ⟨h3, h4⟩
    exact ⟨h3, fun hm => h4 (h2.mpr hm)⟩
  · rintro ⟨h3, h4⟩
    exact ⟨h3, fun hm => h4 (h2.mp hm)⟩

/-- Counting the resume filter: with pairwise-distinct non-empty identity
numbers, a progress set of N numbers drawn from the input leaves exactly
total − N records selected. -/
theorem select_registros_length (dniCol : String) :
    ∀ (rows : List Row) (S : Finset String),
      (rows.map (fun r => pyStrip (rowGet r dniCol))).Nodup →
      (∀ r ∈ rows, pyStrip (rowGet r dniCol) ≠ "") →
      (∀ d ∈ S, d ∈ rows.map (fun r => pyStrip (rowGet r dniCol))) →
      (select_registros dniCol rows S).length = rows.length - S.card := by
  intro rows
  induction rows with
  | nil =>
    intro S _ _ hsub
    have hS : S = ∅ := Finset.eq_empty_iff_forall_not_mem.mpr
      (fun d hd => by simpa using hsub d hd)
    simp [select_registros, hS]
  | cons r rest ih =>
    intro S hnodup hne hsub
    simp only [List.map_cons, List.nodup_cons] at hnodup
    obtain ⟨hnotin, hnodup2⟩ := hnodup
    have hne2 : ∀ r2 ∈ rest, pyStrip (rowGet r2 dniCol) ≠ "" :=
      fun r2 h2 => hne r2 (List.mem_cons_of_mem r h2)
    by_cases hd : pyStrip (rowGet r dniCol) ∈ S
    · have hfc : select_registros dniCol (r :: rest) S = select_registros dniCol rest S := by
        unfold select_registros
        rw [List.filter_cons, if_neg (by simp [hd])]
      have hcongr : select_registros dniCol rest S =
          select_registros dniCol rest (S.erase (pyStrip (rowGet r dniCol))) := by
        apply select_registros_congr
        intro r2 hr2
        have hne3 : pyStrip (rowGet r2 dniCol) ≠ pyStrip (rowGet r dniCol) := by
          intro heq
          exact hnotin (heq ▸ List.mem_map_of_mem (fun x => pyStrip (rowGet x dniCol)) hr2)
        simp [Finset.mem_erase, hne3]
      have hsub2 : ∀ d ∈ S.erase (pyStrip (rowGet r dniCol)),
          d ∈ rest.map (fun x => pyStrip (rowGet x dniCol)) := by
        intro d hd2
        obtain ⟨hdne, hdS⟩ := Finset.mem_erase.mp hd2
        have h4 : d ∈ pyStrip (rowGet r dniCol) ::
            rest.map (fun x => pyStrip (rowGet x dniCol)) := by
          simpa only [List.map_cons] using hsub d hdS
        rcases List.mem_cons.mp h4 with h3 | h3
        · exact absurd h3 hdne
        · exact h3
      have hcard : (S.erase (pyStrip (rowGet r dniCol))).card = S.card - 1 :=
        Finset.card_erase_of_mem hd
      have hcpos : 1 ≤ S.card := Finset.card_pos.mpr ⟨_, hd⟩
      rw [hfc, hcongr, ih _ hnodup2 hne2 hsub2, hcard]
      simp only [List.length_cons]
      omega
    · have hfc : select_registros dniCol (r :: rest) S =
          r :: select_registros dniCol rest S := by
        unfold select_registros
        rw [List.filter_cons, if_pos (by simp [hd, hne r (List.mem_cons_self r rest)])]
      have hsub2 : ∀ d ∈ S, d ∈ rest.map (fun x => pyStrip (rowGet x dniCol)) := by
        intro d hd2
        have h4 : d ∈ pyStrip (rowGet r dniCol) ::
            rest.map (fun x => pyStrip (rowGet x dniCol)) := by
          simpa only [List.map_cons] using hsub d hd2
        rcases List.mem_cons.mp h4 with h3 | h3
        · exact absurd (h3 ▸ hd2) hd
        · exact h3
      have hcard : S.card ≤ rest.length := by
        calc S.card ≤ (rest.map (fun x => pyStrip (rowGet x dniCol))).toFinset.card :=
              Finset.card_le_card (fun d hd2 => List.mem_toFinset.mpr (hsub2 d hd2))
          _ ≤ (rest.map (fun x => pyStrip (rowGet x dniCol))).length :=
              List.toFinset_card_le _
          _ = rest.length := List.length_map _ _
      rw [hfc]
      simp only [List.length_cons, ih _ hnodup2 hne2 hsub2]
      omega

/-- C6: resuming against a results file containing N completed identity
numbers (all of them drawn from the input, whose identity numbers are
non-empty and pairwise distinct) selects exactly total − N records, and a
record is selected exactly when its identity number is not in the
progress set. -/
theorem c6_resume_skip (dniCol : String) (rows fileRows : List Row)
    (hnodup : (rows.map (fun r => pyStrip (rowGet r dniCol))).Nodup)
    (hne : ∀ r ∈ rows, pyStrip (rowGet r dniCol) ≠ "")
    (hsub : ∀ d ∈ load_progress fileRows,
      d ∈ rows.map (fun r => pyStrip (rowGet r dniCol))) :
    (select_registros dniCol rows (load_progress fileRows)).length
        = rows.length - (load_progress fileRows).card
    ∧ ∀ r ∈ rows, (r ∈ select_registros dniCol rows (load_progress fileRows) ↔
        pyStrip (rowGet r dniCol) ∉ load_progress fileRows) := by
  constructor
  · exact select_registros_length dniCol rows (load_progress fileRows) hnodup hne hsub
  · intro r hr
    unfold select_registros
    rw [List.mem_filter]
    simp only [decide_eq_true_eq]
    constructor
    · rintro ⟨_, _, h3⟩
      exact h3
    · intro h3
      exact ⟨hr, hne r hr, h3⟩

/-- C6 witness: one of two records is already in the results file, so
exactly one is selected, and it is the one not yet processed. -/
theorem c6_witness :
    (select_registros "DNI" [[("DNI", "30111222")], [("DNI", "27333444")]]
        (load_progress [[("DNI", "30111222")]])).length = 2 - 1 :=
  (c6_resume_skip "DNI" [[("DNI", "30111222")], [("DNI", "27333444")]]
    [[("DNI", "30111222")]] (by decide) (by decide) (by decide)).1

/- ## Concrete batch-loop fixtures for witnesses -/

/-- A second sample input record. -/
def row1 : Row := [("Nombre del Cliente", "Maria Perez"), ("DNI", "27333444")]

/-- An exception-free attempt whose clipboard reads yield a matching name
and a non-empty address. -/
def attemptOkSample : Attempt :=
  { attempt0 with nameClip := "Perez Juan", addrClip1 := "Av. Siempre Viva 123" }

/-- A concrete run context: attempts succeed on even call indices and
fail name validation on odd ones; check_vpn answers up at every
failure-streak trigger. -/
def ctx0 : Ctx :=
  ⟨cm0, cv0, "DNI", "Nombre del Cliente", fns0,
   fun k => if k % 2 = 0 then attemptOkSample else attempt0,
   fun _ => true⟩

/-- A loop state with a streak of two failed records about to be
replayed, five calls into the run. -/
def st3 : LoopSt := ⟨1, 2, 2, [row0, row1], [], [], false, 5, 0, 0⟩

/- ## Batch-loop lemmas -/

/-- Frame and bounds of the replay loop: it never touches the streak
fields or the recovery counter, only raises exitosos, and lowers fallidos
by at most one per replayed record; both output files only grow. -/
theorem replayFoldE_frame (ctx : Ctx) :
    ∀ (rows : List Row) (s : LoopSt),
      (replayFoldE ctx rows s).1.consecutiveFailures = s.consecutiveFailures ∧
      (replayFoldE ctx rows s).1.failedRows = s.failedRows ∧
      (replayFoldE ctx rows s).1.recoveries = s.recoveries ∧
      s.exitosos ≤ (replayFoldE ctx rows s).1.exitosos ∧
      (replayFoldE ctx rows s).1.fallidos ≤ s.fallidos ∧
      s.fallidos - rows.length ≤ (replayFoldE ctx rows s).1.fallidos ∧
      s.results <+: (replayFoldE ctx rows s).1.results ∧
      s.failures <+: (replayFoldE ctx rows s).1.failures := by
  intro rows
  induction rows with
  | nil =>
    intro s
    simp [replayFoldE]
  | cons r rest ih =>
    intro s
    rcases hst : (callOut ctx s.calls r).status with r0 | e
    · cases r0
      · simp only [replayFoldE, absorbCall, hst, List.length_cons]
        obtain ⟨h1, h2, h3, h4, h5, h6, h7, h8⟩ := ih
          { s with results := s.results ++ (callOut ctx s.calls r).resRows,
                   failures := s.failures ++ (callOut ctx s.calls r).failRows,
                   calls := s.calls + 1, totalRetries := s.totalRetries + 1,
                   exitosos := s.exitosos + 1, fallidos := s.fallidos - 1,
                   headerWritten := true }
        dsimp only at h1 h2 h3 h4 h5 h6 h7 h8
        exact ⟨h1, h2, h3, by omega, by omega, by omega,
          (List.prefix_append _ _).trans h7, (List.prefix_append _ _).trans h8⟩
      · simp only [replayFoldE, absorbCall, hst, List.length_cons]
        obtain ⟨h1, h2, h3, h4, h5, h6, h7, h8⟩ := ih
          { s with results := s.results ++ (callOut ctx s.calls r).resRows,
                   failures := s.failures ++ (callOut ctx s.calls r).failRows,
                   calls := s.calls + 1, totalRetries := s.totalRetries + 1 }
        dsimp only at h1 h2 h3 h4 h5 h6 h7 h8
        exact ⟨h1, h2, h3, by omega, by omega, by omega,
          (List.prefix_append _ _).trans h7, (List.prefix_append _ _).trans h8⟩
      · simp only [replayFoldE, absorbCall, hst, List.length_cons]
        obtain ⟨h1, h2, h3, h4, h5, h6, h7, h8⟩ := ih
          { s with results := s.results ++ (callOut ctx s.calls r).resRows,
                   failures := s.failures ++ (callOut ctx s.calls r).failRows,
                   calls := s.calls + 1, totalRetries := s.totalRetries + 1 }
        dsimp only at h1 h2 h3 h4 h5 h6 h7 h8
        exact ⟨h1, h2, h3, by omega, by omega, by omega,
          (List.prefix_append _ _).trans h7, (List.prefix_append _ _).trans h8⟩
    · simp only [replayFoldE, absorbCall, hst, List.length_cons]
      exact ⟨by simp, by simp, by simp, by simp, by simp, by omega,
        List.prefix_append _ _, List.prefix_append _ _⟩

/-- At most one success can be counted per replayed record. -/
theorem countOk_le_length (ctx : Ctx) :
    ∀ (rows : List Row) (k : Nat), countOk ctx k rows ≤ rows.length := by
  intro rows
  induction rows with
  | nil => intro k; simp [countOk]
  | cons r rest ih =>
    intro k
    simp only [countOk, List.length_cons]
    have := ih (k + 1)
    split <;> omega

/-- Exact counter arithmetic of an uninterrupted replay: exitosos gains
and fallidos loses exactly the number of replays that returned ok, and
every replayed record consumed one call. -/
theorem replayFoldE_counts (ctx : Ctx) :
    ∀ (rows : List Row) (s : LoopSt),
      (replayFoldE ctx rows s).2 = false →
      (replayFoldE ctx rows s).1.exitosos = s.exitosos + countOk ctx s.calls rows ∧
      (replayFoldE ctx rows s).1.fallidos = s.fallidos - countOk ctx s.calls rows ∧
      (replayFoldE ctx rows s).1.calls = s.calls + rows.length := by
  intro rows
  induction rows with
  | nil =>
    intro s _
    simp [replayFoldE, countOk]
  | cons r rest ih =>
    intro s hab
    rcases hst : (callOut ctx s.calls r).status with r0 | e
    · cases r0
      · simp only [replayFoldE, absorbCall, hst] at hab ⊢
        obtain ⟨h1, h2, h3⟩ := ih
          { s with results := s.results ++ (callOut ctx s.calls r).resRows,
                   failures := s.failures ++ (callOut ctx s.calls r).failRows,
                   calls := s.calls + 1, totalRetries := s.totalRetries + 1,
                   exitosos := s.exitosos + 1, fallidos := s.fallidos - 1,
                   headerWritten := true } hab
        dsimp only at h1 h2 h3
        have hco : countOk ctx s.calls (r :: rest) = 1 + countOk ctx (s.calls + 1) rest := by
          simp [countOk, hst]
        rw [hco]
        simp only [List.length_cons]
        refine ⟨?_, ?_, ?_⟩ <;> omega
      · simp only [replayFoldE, absorbCall, hst] at hab ⊢
        obtain ⟨h1, h2, h3⟩ := ih
          { s with results := s.results ++ (callOut ctx s.calls r).resRows,
                   failures := s.failures ++ (callOut ctx s.calls r).failRows,
                   calls := s.calls + 1, totalRetries := s.totalRetries + 1 } hab
        dsimp only at h1 h2 h3
        have hco : countOk ctx s.calls (r :: rest) = countOk ctx (s.calls + 1) rest := by
          simp [countOk, hst]
        rw [hco]
        simp only [List.length_cons]
        refine ⟨?_, ?_, ?_⟩ <;> omega
      · simp only [replayFoldE, absorbCall, hst] at hab ⊢
        obtain ⟨h1, h2, h3⟩ := ih
          { s with results := s.results ++ (callOut ctx s.calls r).resRows,
                   failures := s.failures ++ (callOut ctx s.calls r).failRows,
                   calls := s.calls + 1, totalRetries := s.totalRetries + 1 } hab
        dsimp only at h1 h2 h3
        have hco : countOk ctx s.calls (r :: rest) = countOk ctx (s.calls + 1) rest := by
          simp [countOk, hst]
        rw [hco]
        simp only [List.length_cons]
        refine ⟨?_, ?_, ?_⟩ <;> omega
    · simp only [replayFoldE, absorbCall, hst] at hab
      exact absurd hab (by simp)

/-- C3: replaying the K records of the failure streak after a VPN-down
recovery, when M of the replays return Success, credits exitosos by
exactly M, debits fallidos by exactly M (M ≤ K), and resets the streak to
empty no matter how many replays still fail. -/
theorem c3_replay_accounting (ctx : Ctx) (s : LoopSt)
    (hab : (replayFoldE ctx s.failedRows s).2 = false) :
    countOk ctx s.calls s.failedRows ≤ s.failedRows.length
    ∧ (vpnDownBranch ctx s).2 = false
    ∧ (vpnDownBranch ctx s).1.exitosos = s.exitosos + countOk ctx s.calls s.failedRows
    ∧ (vpnDownBranch ctx s).1.fallidos = s.fallidos - countOk ctx s.calls s.failedRows
    ∧ (vpnDownBranch ctx s).1.consecutiveFailures = 0
    ∧ (vpnDownBranch ctx s).1.failedRows = [] := by
  obtain ⟨h1, h2, h3⟩ := replayFoldE_counts ctx s.failedRows s hab
  unfold vpnDownBranch
  rw [if_neg (by rw [hab]; exact Bool.false_ne_true)]
  exact ⟨countOk_le_length ctx s.failedRows s.calls, rfl, h1, h2, rfl, rfl⟩

/-- C3 witness: a streak of two records, one of which succeeds on replay. -/
theorem c3_witness :
    (vpnDownBranch ctx0 st3).1.exitosos = st3.exitosos + countOk ctx0 st3.calls st3.failedRows
    ∧ (vpnDownBranch ctx0 st3).1.fallidos = st3.fallidos - countOk ctx0 st3.calls st3.failedRows
    ∧ (vpnDownBranch ctx0 st3).1.consecutiveFailures = 0
    ∧ (vpnDownBranch ctx0 st3).1.failedRows = [] :=
  ⟨((c3_replay_accounting ctx0 st3 (by decide)).2.2.1),
   ((c3_replay_accounting ctx0 st3 (by decide)).2.2.2.1),
   ((c3_replay_accounting ctx0 st3 (by decide)).2.2.2.2.1),
   ((c3_replay_accounting ctx0 st3 (by decide)).2.2.2.2.2)⟩

/-- The VPN-down recovery keeps the recovery count, resets the streak
when it completes, and never increases the streak even when aborted. -/
theorem vpnDownBranch_cf (ctx : Ctx) (s : LoopSt) :
    (vpnDownBranch ctx s).1.recoveries = s.recoveries ∧
    ((vpnDownBranch ctx s).2 = false → (vpnDownBranch ctx s).1.consecutiveFailures = 0) ∧
    (vpnDownBranch ctx s).1.consecutiveFailures ≤ s.consecutiveFailures := by
  obtain ⟨f1, f2, f3, _, _, _, _, _⟩ := replayFoldE_frame ctx s.failedRows s
  unfold vpnDownBranch
  dsimp only
  by_cases hab : (replayFoldE ctx s.failedRows s).2 = true
  · rw [if_pos hab]
    refine ⟨f3, ?_, le_of_eq f1⟩
    intro hf
    rw [hf] at hab
    exact absurd hab (by simp)
  · rw [if_neg hab]
    exact ⟨f3, fun _ => rfl, Nat.zero_le _⟩

/-- One batch-loop iteration on a Success, in closed form. -/
theorem stepE_ok_eq (ctx : Ctx) (row : Row) (s : LoopSt)
    (hst : (callOut ctx s.calls row).status = ExecR.ok PResult.ok) :
    stepE ctx row s =
      ({ absorbCall s (callOut ctx s.calls row) with
           headerWritten := true,
           exitosos := s.exitosos + 1,
           consecutiveFailures := 0,
           failedRows := [] },
       false) := by
  unfold stepE
  dsimp only
  rw [hst]
  rfl

/-- One batch-loop iteration on either failure kind, in closed form. -/
theorem stepE_fail_eq (ctx : Ctx) (row : Row) (s : LoopSt) (r0 : PResult)
    (hst : (callOut ctx s.calls row).status = ExecR.ok r0)
    (hr0 : r0 = PResult.vpnIssue ∨ r0 = PResult.error) :
    stepE ctx row s =
      (if MAX_CONSECUTIVE_FAILURES ≤ s.consecutiveFailures + 1 then
        (if ctx.vpnUpAt s.recoveries = false then
          vpnDownBranch ctx
            { absorbCall s (callOut ctx s.calls row) with
              fallidos := s.fallidos + 1,
              consecutiveFailures := s.consecutiveFailures + 1,
              failedRows := s.failedRows ++ [row], recoveries := s.recoveries + 1 }
        else
          vpnUpBranch
            { absorbCall s (callOut ctx s.calls row) with
              fallidos := s.fallidos + 1,
              consecutiveFailures := s.consecutiveFailures + 1,
              failedRows := s.failedRows ++ [row], recoveries := s.recoveries + 1 })
      else
        ({ absorbCall s (callOut ctx s.calls row) with
           fallidos := s.fallidos + 1,
           consecutiveFailures := s.consecutiveFailures + 1,
           failedRows := s.failedRows ++ [row] }, false)) := by
  rcases hr0 with rfl | rfl <;> (unfold stepE; dsimp only; rw [hst]; rfl)

/-- One batch-loop iteration on a propagated interrupt, in closed form. -/
theorem stepE_raised_eq (ctx : Ctx) (row : Row) (s : LoopSt) (e : Exc)
    (hst : (callOut ctx s.calls row).status = ExecR.raised e) :
    stepE ctx row s = (absorbCall s (callOut ctx s.calls row), true) := by
  unfold stepE
  dsimp only
  rw [hst]

/-- C2: in the batch loop, a Success resets the streak, either failure
kind extends it by exactly one, the streak never exceeds
MAX_CONSECUTIVE_FAILURES, and the moment it reaches the threshold
exactly one recovery cycle (the VPN-down or the VPN-up branch) is
triggered, after which the streak is 0 unless the operator interrupt
aborted the run mid-recovery. -/
theorem c2_streak_policy (ctx : Ctx) (row : Row) (s : LoopSt)
    (h : s.consecutiveFailures ≤ 2) :
    ((callOut ctx s.calls row).status = ExecR.ok PResult.ok →
      (stepE ctx row s).1.consecutiveFailures = 0 ∧
      (stepE ctx row s).1.recoveries = s.recoveries)
    ∧ (∀ r, (callOut ctx s.calls row).status = ExecR.ok r → r ≠ PResult.ok →
        (s.consecutiveFailures + 1 < MAX_CONSECUTIVE_FAILURES →
          (stepE ctx row s).1.consecutiveFailures = s.consecutiveFailures + 1 ∧
          (stepE ctx row s).1.recoveries = s.recoveries)
        ∧ (s.consecutiveFailures + 1 = MAX_CONSECUTIVE_FAILURES →
          (stepE ctx row s).1.recoveries = s.recoveries + 1 ∧
          ((stepE ctx row s).2 = false → (stepE ctx row s).1.consecutiveFailures = 0)))
    ∧ ((stepE ctx row s).2 = false → (stepE ctx row s).1.consecutiveFailures ≤ 2)
    ∧ (stepE ctx row s).1.consecutiveFailures ≤ MAX_CONSECUTIVE_FAILURES := by
  rcases hst : (callOut ctx s.calls row).status with r0 | e
  · by_cases hok : r0 = PResult.ok
    · subst hok
      rw [stepE_ok_eq ctx row s hst]
      refine ⟨fun _ => ⟨rfl, rfl⟩, ?_, fun _ => by dsimp only; omega,
        by dsimp only; exact Nat.zero_le _⟩
      intro r hr1 hr2
      obtain rfl : PResult.ok = r := by simpa using hr1
      exact absurd rfl hr2
    · have hr0 : r0 = PResult.vpnIssue ∨ r0 = PResult.error := by
        cases r0 <;> simp_all
      rw [stepE_fail_eq ctx row s r0 hst hr0]
      by_cases hcf : s.consecutiveFailures + 1 < 3
      · rw [if_neg (show ¬ MAX_CONSECUTIVE_FAILURES ≤ s.consecutiveFailures + 1 by
          simp only [MAX_CONSECUTIVE_FAILURES]; omega)]
        refine ⟨?_, ?_, fun _ => by dsimp only; omega,
          by dsimp only; simp only [MAX_CONSECUTIVE_FAILURES]; omega⟩
        · intro h1
          exact absurd (by simpa using h1) hok
        · intro r hr1 hr2
          refine ⟨fun _ => ⟨rfl, rfl⟩, fun hcf3 => ?_⟩
          simp only [MAX_CONSECUTIVE_FAILURES] at hcf3
          omega
      · rw [if_pos (show MAX_CONSECUTIVE_FAILURES ≤ s.consecutiveFailures + 1 by
          simp only [MAX_CONSECUTIVE_FAILURES]; omega)]
        by_cases hvpn : ctx.vpnUpAt s.recoveries = false
        · rw [if_pos hvpn]
          refine ⟨?_, ?_, ?_, ?_⟩
          · intro h1
            exact absurd (by simpa using h1) hok
          · intro r hr1 hr2
            refine ⟨fun hlt => ?_, fun _ => ?_⟩
            · simp only [MAX_CONSECUTIVE_FAILURES] at hlt
              omega
            · exact ⟨(vpnDownBranch_cf ctx _).1, fun hab => (vpnDownBranch_cf ctx _).2.1 hab⟩
          · intro hab
            exact le_trans (le_of_eq ((vpnDownBranch_cf ctx _).2.1 hab)) (by omega)
          · exact le_trans (vpnDownBranch_cf ctx _).2.2
              (by dsimp only; simp only [MAX_CONSECUTIVE_FAILURES]; omega)
        · rw [if_neg hvpn]
          unfold vpnUpBranch
          refine ⟨?_, ?_, fun _ => Nat.zero_le _, Nat.zero_le _⟩
          · intro h1
            exact absurd (by simpa using h1) hok
          · intro r hr1 hr2
            refine ⟨fun hlt => ?_, fun _ => ⟨rfl, fun _ => rfl⟩⟩
            simp only [MAX_CONSECUTIVE_FAILURES] at hlt
            omega
  · rw [stepE_raised_eq ctx row s e hst]
    refine ⟨?_, ?_, fun hab => absurd hab (by simp),
      by simp only [absorbCall, MAX_CONSECUTIVE_FAILURES]; omega⟩
    · intro h1
      exact absurd h1 (by simp)
    · intro r hr1 hr2
      exact absurd hr1 (by simp)

/-- C2 witness: the streak policy at a concrete successful first step. -/
theorem c2_witness :
    (stepE ctx0 row0 initSt).1.consecutiveFailures = 0 ∧
    (stepE ctx0 row0 initSt).1.recoveries = initSt.recoveries :=
  (c2_streak_policy ctx0 row0 initSt (by decide)).1 (by decide)

/-- The batch-loop counter invariant: both tallies are non-negative, the
streak counter counts exactly the streak rows, and the streak is never
longer than the failure tally. -/
def LoopInv (s : LoopSt) : Prop :=
  0 ≤ s.exitosos ∧ 0 ≤ s.fallidos ∧
  s.consecutiveFailures = s.failedRows.length ∧
  (s.failedRows.length : Int) ≤ s.fallidos

/-- The loop invariant is a checkable property. -/
instance (s : LoopSt) : Decidable (LoopInv s) := by
  unfold LoopInv
  infer_instance

/-- The VPN-down recovery keeps the tallies non-negative, and when it
completes it re-establishes the loop invariant. -/
theorem trigger_inv (ctx : Ctx) (s4 : LoopSt)
    (h1 : 0 ≤ s4.exitosos) (_h2 : 0 ≤ s4.fallidos)
    (h3 : (s4.failedRows.length : Int) ≤ s4.fallidos) :
    (0 ≤ (vpnDownBranch ctx s4).1.exitosos ∧ 0 ≤ (vpnDownBranch ctx s4).1.fallidos) ∧
    ((vpnDownBranch ctx s4).2 = false → LoopInv (vpnDownBranch ctx s4).1) := by
  obtain ⟨f1, f2, f3, f4, f5, f6, f7, f8⟩ := replayFoldE_frame ctx s4.failedRows s4
  unfold vpnDownBranch
  dsimp only
  by_cases hab : (replayFoldE ctx s4.failedRows s4).2 = true
  · rw [if_pos hab]
    refine ⟨⟨by omega, by omega⟩, fun hf => ?_⟩
    rw [hf] at hab
    exact absurd hab (by simp)
  · rw [if_neg hab]
    refine ⟨⟨?_, ?_⟩, fun _ => ⟨?_, ?_, ?_, ?_⟩⟩
    · show 0 ≤ (replayFoldE ctx s4.failedRows s4).1.exitosos
      omega
    · show 0 ≤ (replayFoldE ctx s4.failedRows s4).1.fallidos
      omega
    · show 0 ≤ (replayFoldE ctx s4.failedRows s4).1.exitosos
      omega
    · show 0 ≤ (replayFoldE ctx s4.failedRows s4).1.fallidos
      omega
    · rfl
    · show ((([] : List Row).length : Nat) : Int) ≤ (replayFoldE ctx s4.failedRows s4).1.fallidos
      simp only [List.length_nil, Nat.cast_zero]
      omega

/-- One loop iteration preserves the invariant (when not aborted) and
keeps the tallies non-negative in every case. -/
theorem stepE_inv (ctx : Ctx) (row : Row) (s : LoopSt) (h : LoopInv s) :
    ((stepE ctx row s).2 = false → LoopInv (stepE ctx row s).1) ∧
    0 ≤ (stepE ctx row s).1.exitosos ∧ 0 ≤ (stepE ctx row s).1.fallidos := by
  obtain ⟨h1, h2, h3, h4⟩ := h
  rcases hst : (callOut ctx s.calls row).status with r0 | e
  · by_cases hok : r0 = PResult.ok
    · subst hok
      rw [stepE_ok_eq ctx row s hst]
      simp only [absorbCall, LoopInv]
      try dsimp only
      refine ⟨fun _ => ⟨by omega, by omega, rfl, ?_⟩, by omega, by omega⟩
      simp only [List.length_nil, Nat.cast_zero]
      omega
    · have hr0 : r0 = PResult.vpnIssue ∨ r0 = PResult.error := by
        cases r0 <;> simp_all
      rw [stepE_fail_eq ctx row s r0 hst hr0]
      by_cases hcf : MAX_CONSECUTIVE_FAILURES ≤ s.consecutiveFailures + 1
      · rw [if_pos hcf]
        by_cases hvpn : ctx.vpnUpAt s.recoveries = false
        · rw [if_pos hvpn]
          refine ⟨(trigger_inv ctx _ ?_ ?_ ?_).2, (trigger_inv ctx _ ?_ ?_ ?_).1.1,
            (trigger_inv ctx _ ?_ ?_ ?_).1.2⟩
          all_goals simp only [absorbCall]
          all_goals try simp only [List.length_append, List.length_cons, List.length_nil]
          all_goals try push_cast
          all_goals omega
        · rw [if_neg hvpn]
          unfold vpnUpBranch
          simp only [absorbCall, LoopInv]
          try dsimp only
          refine ⟨fun _ => ⟨by omega, by omega, rfl, ?_⟩, by omega, by omega⟩
          simp only [List.length_nil, Nat.cast_zero]
          omega
      · rw [if_neg hcf]
        simp only [absorbCall, LoopInv]
        try dsimp only
        refine ⟨fun _ => ⟨by omega, by omega, ?_, ?_⟩, by omega, by omega⟩
        · simp only [List.length_append, List.length_cons, List.length_nil]
          omega
        · simp only [List.length_append, List.length_cons, List.length_nil]
          push_cast
          omega
  · rw [stepE_raised_eq ctx row s e hst]
    simp only [absorbCall]
    try dsimp only
    exact ⟨fun hf => absurd hf (by simp), by omega, by omega⟩

/-- The defining equation of one loop unfolding. -/
theorem runLoopE_cons (ctx : Ctx) (r : Row) (rest : List Row) (s : LoopSt) :
    runLoopE ctx (r :: rest) s =
      (if (stepE ctx r s).2 = true then stepE ctx r s
       else runLoopE ctx rest (stepE ctx r s).1) := rfl

/-- The invariant and non-negativity carry through the whole loop. -/
theorem runLoopE_inv (ctx : Ctx) :
    ∀ (rows : List Row) (s : LoopSt), LoopInv s →
      (0 ≤ (runLoopE ctx rows s).1.exitosos ∧ 0 ≤ (runLoopE ctx rows s).1.fallidos) ∧
      ((runLoopE ctx rows s).2 = false → LoopInv (runLoopE ctx rows s).1) := by
  intro rows
  induction rows with
  | nil =>
    intro s hs
    exact ⟨⟨hs.1, hs.2.1⟩, fun _ => hs⟩
  | cons r rest ih =>
    intro s hs
    obtain ⟨hstep_inv, hex, hfa⟩ := stepE_inv ctx r s hs
    by_cases hab : (stepE ctx r s).2 = true
    · rw [runLoopE_cons, if_pos hab]
      exact ⟨⟨hex, hfa⟩, fun hf => absurd hab (by simp [hf])⟩
    · have hab2 : (stepE ctx r s).2 = false := by simpa using hab
      rw [runLoopE_cons, if_neg hab]
      exact ih _ (hstep_inv hab2)

/-- C9: throughout the batch loop, exitosos and fallidos never go
negative: from any invariant state (the initial state in particular) the
loop keeps both tallies at or above zero, an uninterrupted run preserves
the full invariant, and every replay prefix that fits inside the current
streak keeps the tallies non-negative as well — fallidos is decremented
only for records whose earlier failure it had counted. -/
theorem c9_counters_nonneg (ctx : Ctx) (rows : List Row) (s : LoopSt) (h : LoopInv s) :
    0 ≤ (runLoopE ctx rows s).1.exitosos ∧ 0 ≤ (runLoopE ctx rows s).1.fallidos
    ∧ ((runLoopE ctx rows s).2 = false → LoopInv (runLoopE ctx rows s).1)
    ∧ ∀ pre : List Row, pre.length ≤ s.failedRows.length →
        0 ≤ (replayFoldE ctx pre s).1.exitosos ∧
        0 ≤ (replayFoldE ctx pre s).1.fallidos := by
  obtain ⟨⟨a, b⟩, c⟩ := runLoopE_inv ctx rows s h
  refine ⟨a, b, c, ?_⟩
  intro pre hpre
  obtain ⟨_, _, _, f4, _, f6, _, _⟩ := replayFoldE_frame ctx pre s
  obtain ⟨h1, h2, h3, h4⟩ := h
  exact ⟨by omega, by omega⟩

/-- C9 witness: the tallies after a one-record run from the initial
state. -/
theorem c9_witness :
    0 ≤ (runLoopE ctx0 [row0] initSt).1.exitosos ∧
    0 ≤ (runLoopE ctx0 [row0] initSt).1.fallidos :=
  ⟨(c9_counters_nonneg ctx0 [row0] initSt (by decide)).1,
   (c9_counters_nonneg ctx0 [row0] initSt (by decide)).2.1⟩

/-- The VPN-down recovery only appends to the output files. -/
theorem vpnDownBranch_mono (ctx : Ctx) (s : LoopSt) (lr : List Row) (lf : List FailRow)
    (h1 : lr <+: s.results) (h2 : lf <+: s.failures) :
    lr <+: (vpnDownBranch ctx s).1.results ∧ lf <+: (vpnDownBranch ctx s).1.failures := by
  obtain ⟨_, _, _, _, _, _, f7, f8⟩ := replayFoldE_frame ctx s.failedRows s
  unfold vpnDownBranch
  dsimp only
  by_cases hab : (replayFoldE ctx s.failedRows s).2 = true
  · rw [if_pos hab]
    exact ⟨h1.trans f7, h2.trans f8⟩
  · rw [if_neg hab]
    exact ⟨h1.trans f7, h2.trans f8⟩

/-- One loop iteration only appends to the output files. -/
theorem stepE_mono (ctx : Ctx) (row : Row) (s : LoopSt) :
    s.results <+: (stepE ctx row s).1.results ∧
    s.failures <+: (stepE ctx row s).1.failures := by
  rcases hst : (callOut ctx s.calls row).status with r0 | e
  · by_cases hok : r0 = PResult.ok
    · subst hok
      rw [stepE_ok_eq ctx row s hst]
      exact ⟨List.prefix_append _ _, List.prefix_append _ _⟩
    · have hr0 : r0 = PResult.vpnIssue ∨ r0 = PResult.error := by
        cases r0 <;> simp_all
      rw [stepE_fail_eq ctx row s r0 hst hr0]
      by_cases hcf : MAX_CONSECUTIVE_FAILURES ≤ s.consecutiveFailures + 1
      · rw [if_pos hcf]
        by_cases hvpn : ctx.vpnUpAt s.recoveries = false
        · rw [if_pos hvpn]
          apply vpnDownBranch_mono ctx _ s.results s.failures
          · exact List.prefix_append _ _
          · exact List.prefix_append _ _
        · rw [if_neg hvpn]
          unfold vpnUpBranch
          exact ⟨List.prefix_append _ _, List.prefix_append _ _⟩
      · rw [if_neg hcf]
        exact ⟨List.prefix_append _ _, List.prefix_append _ _⟩
  · rw [stepE_raised_eq ctx row s e hst]
    exact ⟨List.prefix_append _ _, List.prefix_append _ _⟩

/-- The whole loop only appends to the output files. -/
theorem runLoopE_mono (ctx : Ctx) :
    ∀ (rows : List Row) (s : LoopSt),
      s.results <+: (runLoopE ctx rows s).1.results ∧
      s.failures <+: (runLoopE ctx rows s).1.failures := by
  intro rows
  induction rows with
  | nil =>
    intro s
    exact ⟨List.prefix_refl _, List.prefix_refl _⟩
  | cons r rest ih =>
    intro s
    by_cases hab : (stepE ctx r s).2 = true
    · rw [runLoopE_cons, if_pos hab]
      exact stepE_mono ctx r s
    · rw [runLoopE_cons, if_neg hab]
      exact ⟨List.IsPrefix.trans (stepE_mono ctx r s).1 (ih _).1,
             List.IsPrefix.trans (stepE_mono ctx r s).2 (ih _).2⟩

/-- A call that returns Success appends exactly one results row and
nothing to the failures file. -/
theorem process_dni_ok_rows (cm : CharModel) (c : CoordsV) (a : Attempt)
    (dniCol nombreCol : String) (fns : List String) (row : Row) :
    (process_dni cm c a dniCol nombreCol fns row).status = ExecR.ok PResult.ok →
    (process_dni cm c a dniCol nombreCol fns row).resRows.length = 1 ∧
    (process_dni cm c a dniCol nombreCol fns row).failRows = [] := by
  intro hok
  rcases hbd : process_dni_body cm c a dniCol nombreCol fns row with ⟨st, res, fl, cl⟩
  cases st with
  | ok r0 =>
    have hpd := process_dni_of_body_ok cm c a dniCol nombreCol fns row r0 res fl cl hbd
    rw [hpd] at hok ⊢
    obtain rfl : r0 = PResult.ok := by simpa using hok
    rcases body_ok_rows cm c a dniCol nombreCol fns row _ res fl cl hbd with
      ⟨_, h5, h6⟩ | ⟨h44, _, _⟩
    · exact ⟨h5, h6⟩
    · exact absurd rfl h44
  | raised e0 =>
    rcases process_dni_of_body_raised cm c a dniCol nombreCol fns row e0 res fl cl hbd with
      ⟨he0, hpd⟩ | ⟨m, he0, hst, hres, hfl⟩
    · rw [hpd] at hok
      simp at hok
    · rcases hst with h44 | h44
      · have h45 := hok.symm.trans h44
        simp at h45
      · have h45 := hok.symm.trans h44
        simp at h45

/-- C10: the results and failures files are append-only through every
loop construct — an iteration, a replay, and the whole run only extend
them — and a replayed record that now succeeds appends exactly one row to
the results file and none to the failures file, so its earlier failure
row is untouched and only the in-memory counters are adjusted. -/
theorem c10_files_append_only (ctx : Ctx) :
    (∀ (row : Row) (s : LoopSt),
      s.results <+: (stepE ctx row s).1.results ∧
      s.failures <+: (stepE ctx row s).1.failures)
    ∧ (∀ (rows : List Row) (s : LoopSt),
      s.results <+: (replayFoldE ctx rows s).1.results ∧
      s.failures <+: (replayFoldE ctx rows s).1.failures)
    ∧ (∀ (rows : List Row) (s : LoopSt),
      s.results <+: (runLoopE ctx rows s).1.results ∧
      s.failures <+: (runLoopE ctx rows s).1.failures)
    ∧ (∀ (k : Nat) (row : Row), (callOut ctx k row).status = ExecR.ok PResult.ok →
      (callOut ctx k row).resRows.length = 1 ∧ (callOut ctx k row).failRows = []) := by
  refine ⟨stepE_mono ctx, ?_, runLoopE_mono ctx, ?_⟩
  · intro rows s
    obtain ⟨_, _, _, _, _, _, f7, f8⟩ := replayFoldE_frame ctx rows s
    exact ⟨f7, f8⟩
  · intro k row hok
    exact process_dni_ok_rows ctx.cm ctx.coords (ctx.attemptAt k) ctx.dniCol
      ctx.nombreCol ctx.fieldnames row hok

/-- C10 witness: the append-only accounting of a concrete successful
call. -/
theorem c10_witness :
    (callOut ctx0 0 row0).status = ExecR.ok PResult.ok ∧
    (callOut ctx0 0 row0).resRows.length = 1 ∧
    (callOut ctx0 0 row0).failRows = [] :=
  ⟨by decide,
   ((c10_files_append_only ctx0).2.2.2 0 row0 (by decide)).1,
   ((c10_files_append_only ctx0).2.2.2 0 row0 (by decide)).2⟩

end Camino
